import Mathlib

/-!
Verification of the `jina-ai/correlations` command-line tool against its
specification.  The development shallowly embeds the two source files
(`src/commands/corr.ts` and `src/utils/reader.ts`) into Lean:

* JavaScript numbers are idealised as real numbers; a computation that in
  JavaScript produces a non-finite value (`NaN` arising from arithmetic on an
  `undefined` array read or from `0/0`, or an infinity from division by zero)
  is modelled as `none : Option ℝ`.  No operation in the embedded code ever
  turns a non-finite value back into a finite one (the only division sits at
  the very end of `cosineSimilarity` and its denominator is always finite), so
  collapsing all non-finite values into `none` is a sound abstraction.
* JavaScript strings are modelled as `List Char`.  (JavaScript `length` and
  `slice` count UTF-16 code units; the model counts characters, which agrees
  on all the material in the claims.)
* The file system is an explicit parameter: a partial map from path strings to
  byte lists (for image assets), and a partial map from path strings to parsed
  line lists (for the newline-delimited JSON input; `none` for a line models a
  line that fails to parse as JSON, `none` for a whole file models a file that
  cannot be opened).
-/

set_option maxHeartbeats 1000000

namespace Corr

/-- JavaScript strings, modelled as lists of characters. -/
abbrev Str := List Char

/-- A JavaScript number: `some x` is a finite double idealised as a real,
`none` is a non-finite result (NaN or an infinity). -/
abbrev JsNum := Option ℝ

/-- JavaScript addition on possibly non-finite numbers: any non-finite operand
contaminates the result. -/
def jadd : JsNum → JsNum → JsNum
  | some x, some y => some (x + y)
  | _, _ => none

/-- JavaScript multiplication: any non-finite operand contaminates the result
(in particular `val * undefined` is NaN). -/
def jmul : JsNum → JsNum → JsNum
  | some x, some y => some (x * y)
  | _, _ => none

/-- JavaScript division.  A zero denominator yields NaN (`0/0`) or an infinity
(`x/0`), both collapsed to `none`; a non-finite operand propagates. -/
noncomputable def jdiv : JsNum → JsNum → JsNum
  | some x, some y => if y = 0 then none else some (x / y)
  | _, _ => none

/-- `Math.sqrt`: NaN on a negative or non-finite argument. -/
noncomputable def jsqrt : JsNum → JsNum
  | some x => if x < 0 then none else some (Real.sqrt x)
  | none => none

/-- JavaScript array indexing `b[i]`: `none` (which propagates as NaN through
arithmetic) when the index is out of range. -/
def jsGet : List ℝ → ℕ → JsNum
  | [], _ => none
  | x :: _, 0 => some x
  | _ :: xs, n + 1 => jsGet xs n

/-- The accumulator loop of `a.reduce((sum, val, i) => sum + val * b[i], 0)`:
`i` is the current index into `b`, the remaining elements of `a` are the third
argument. -/
def dotProductAux (b : List ℝ) : ℕ → JsNum → List ℝ → JsNum
  | _, acc, [] => acc
  | i, acc, v :: rest => dotProductAux b (i + 1) (jadd acc (jmul (some v) (jsGet b i))) rest

/-- `a.reduce((sum, val, i) => sum + val * b[i], 0)` from `cosineSimilarity`
(src/commands/corr.ts line 20): the iteration is over the indices of `a`, and
a read past the end of `b` contaminates the sum with NaN. -/
def dotProductJs (a b : List ℝ) : JsNum :=
  dotProductAux b 0 (some 0) a

/-- `a.reduce((sum, val) => sum + val * val, 0)` (lines 21-22): the sum of
squares of one vector, a plain finite real. -/
def sumSquares (a : List ℝ) : ℝ :=
  a.foldl (fun sum v => sum + v * v) 0

/-- `cosineSimilarity` (src/commands/corr.ts lines 19-24):
`dotProduct / (Math.sqrt(sumSquares a) * Math.sqrt(sumSquares b))`. -/
noncomputable def cosineSimilarity (a b : List ℝ) : JsNum :=
  jdiv (dotProductJs a b)
    (jmul (jsqrt (some (sumSquares a))) (jsqrt (some (sumSquares b))))

/-- `computeCorrelationMatrix` (src/commands/corr.ts lines 26-36).  The
ml-matrix `new Matrix(n, m)` allocates a dense zero-initialised n×m matrix,
the nested loops then set every cell `(i, j)` to
`cosineSimilarity(embeddings1[i], embeddings2[j])`, and `to2DArray` reads the
dense matrix back out; the net effect is the direct tabulation below. -/
noncomputable def computeCorrelationMatrix (embeddings1 embeddings2 : List (List ℝ)) :
    List (List JsNum) :=
  embeddings1.map (fun v1 => embeddings2.map (fun v2 => cosineSimilarity v1 v2))

/-- The mathematical (right-nested) dot product of the overlapping prefixes of
two real vectors; a helper for stating what the JavaScript reduce computes. -/
def dotR : List ℝ → List ℝ → ℝ
  | [], _ => 0
  | _, [] => 0
  | x :: xs, y :: ys => x * y + dotR xs ys

/-- Modelled from the spec: claim C2 and §4.3 say that for mismatched lengths
`cosineSimilarity` "silently uses the shorter one's indices" for its dot
product, i.e. the dot product pairs entries up to the shorter length while the
two norms use each full vector.  This definition follows those words, to be
compared with `cosineSimilarity` as embedded from the source. -/
noncomputable def cosineSimilaritySpec (a b : List ℝ) : JsNum :=
  jdiv (some (dotR a b))
    (jmul (jsqrt (some (sumSquares a))) (jsqrt (some (sumSquares b))))

/-- Indexing with a default value (the bounded claims below always supply an
in-range index, where this agrees with list indexing). -/
def nthD {α : Type _} : List α → ℕ → α → α
  | [], _, d => d
  | x :: _, 0, _ => x
  | _ :: xs, n + 1, d => nthD xs n d

/-- JavaScript `s.startsWith(p)`: the first argument is the pattern. -/
def strStarts : Str → Str → Bool
  | [], _ => true
  | _ :: _, [] => false
  | p :: ps, c :: cs => p == c && strStarts ps cs

/-- JavaScript `s.endsWith(p)`: the first argument is the pattern. -/
def strEnds (p s : Str) : Bool :=
  strStarts p.reverse s.reverse

/-- JavaScript `s.trim()`: strip leading and trailing whitespace.  (JavaScript
trims a slightly larger Unicode whitespace set than `Char.isWhitespace`; the
claims only need that a whitespace-only string trims to the empty string.) -/
def trimL (s : Str) : Str :=
  ((s.dropWhile Char.isWhitespace).reverse.dropWhile Char.isWhitespace).reverse

/-- `isImagePath` (src/commands/corr.ts lines 38-47): starts with
`data:image/`, `http://` or `https://`, or ends (case-sensitively) with one of
the five image extensions. -/
def isImagePath (s : Str) : Bool :=
  strStarts "data:image/".toList s ||
  strStarts "http://".toList s ||
  strStarts "https://".toList s ||
  strEnds ".jpg".toList s ||
  strEnds ".jpeg".toList s ||
  strEnds ".png".toList s ||
  strEnds ".gif".toList s ||
  strEnds ".webp".toList s

/-- `truncateLabel` (src/commands/corr.ts lines 85-90): an image reference
renders as the placeholder glyph, otherwise text longer than `maxLen` is cut
to its first `maxLen` characters plus an ellipsis marker. -/
def truncateLabel (text : Str) (maxLen : ℕ := 32) : Str :=
  if isImagePath text then "🖼️".toList
  else if text.length > maxLen then text.take maxLen ++ "…".toList else text

/-- Node `path.basename`-like helper: the part of a path after its last `/`. -/
def basenameL (p : Str) : Str :=
  (p.reverse.takeWhile (fun c => c ≠ '/')).reverse

/-- Node `path.extname`: the suffix of the basename from its last `.`; empty
when the basename has no dot or only a leading dot (a dotfile). -/
def extnameL (p : Str) : Str :=
  let b := basenameL p
  let tl := b.reverse.takeWhile (fun c => c ≠ '.')
  if tl.length = b.length then []
  else if tl.length + 1 = b.length then []
  else '.' :: tl.reverse

/-- Node `path.resolve(baseDir, p)`, simplified to the cases the tool
exercises: an absolute path is kept, a relative one is joined to `baseDir`.
(Node additionally normalises `.`/`..` segments; the claims are insensitive to
the concrete path string because the file system is an abstract map.) -/
def pathResolve (baseDir p : Str) : Str :=
  if strStarts "/".toList p then p else baseDir ++ '/' :: p

/-- Node `path.dirname`, for the input file's directory: everything before the
last `/`, or `.` when there is no `/`. -/
def dirnameL (p : Str) : Str :=
  let pre := (p.reverse.dropWhile (fun c => c ≠ '/')).reverse
  if pre = [] then ['.']
  else if pre = ['/'] then ['/']
  else pre.dropLast

/-- The character at index `n` of the standard base64 alphabet. -/
def b64Char (n : ℕ) : Char :=
  nthD "ABCDEFGHIJKLMNOPQRSTUVWXYZabcdefghijklmnopqrstuvwxyz0123456789+/".toList n 'A'

/-- Standard base64 of a byte sequence (Node `Buffer.toString('base64')`):
three bytes become four alphabet characters, with `=` padding. -/
def base64Encode : List ℕ → Str
  | [] => []
  | [a] => [b64Char (a / 4), b64Char (a % 4 * 16), '=', '=']
  | [a, b] => [b64Char (a / 4), b64Char (a % 4 * 16 + b / 16), b64Char (b % 16 * 4), '=']
  | a :: b :: c :: rest =>
      b64Char (a / 4) :: b64Char (a % 4 * 16 + b / 16) ::
        b64Char (b % 16 * 4 + c / 64) :: b64Char (c % 64) :: base64Encode rest

/-- A file system for image assets: a partial map from path strings to file
contents (byte lists).  `fs.existsSync p` is `(fsys p).isSome` and
`fs.readFileSync p` is the mapped byte list. -/
abbrev ImageFs := Str → Option (List ℕ)

/-- `resolveImagePath` (src/commands/corr.ts lines 49-64): data URIs and
absolute http(s) URLs pass through; a path whose resolved file exists is
re-encoded as a base64 data URI (`image/png` when the lower-cased extension is
`.png`, else `image/jpeg`); anything else is returned unchanged. -/
def resolveImagePath (fsys : ImageFs) (baseDir p : Str) : Str :=
  if strStarts "data:image/".toList p ||
     strStarts "http://".toList p ||
     strStarts "https://".toList p then
    p
  else
    match fsys (pathResolve baseDir p) with
    | some bytes =>
        "data:".toList ++
          (if (extnameL (pathResolve baseDir p)).map Char.toLower = ".png".toList
           then "image/png".toList else "image/jpeg".toList) ++
          ";base64,".toList ++ base64Encode bytes
    | none => p

/-- One parsed line of the input file (the `EmbeddingOutput` record):
an embedding vector and its source chunk. -/
structure EmbeddingOutput where
  embedding : List ℝ
  chunk : Str

/-- The per-record chunk handling of the `data` handler
(src/commands/corr.ts line 77): image chunks go through `resolveImagePath`,
text chunks pass through unchanged. -/
def processChunk (fsys : ImageFs) (baseDir c : Str) : Str :=
  if isImagePath c then resolveImagePath fsys baseDir c else c

/-- The outcome of the ndjson stream: the records in line order if every line
parses, `none` as soon as some line fails (the stream errors and the promise
rejects, discarding any partial rows). -/
def collectLines : List (Option EmbeddingOutput) → Option (List EmbeddingOutput)
  | [] => some []
  | none :: _ => none
  | some r :: rest => (collectLines rest).map (fun l => r :: l)

/-- The input-file side of the file system: a partial map from path strings to
line lists.  `none` for a whole file models a file that cannot be opened;
`none` for a line models a line that fails to parse as JSON. -/
abbrev TextFs := Str → Option (List (Option EmbeddingOutput))

/-- The two ways `loadEmbeddings` can reject: the stream's open error and the
ndjson parse error (the spec's `FileAccessFailure` and `ParseFailure`). -/
inductive LoadError
  | fileAccessFailure
  | parseFailure
deriving DecidableEq

/-- `loadEmbeddings` (src/commands/corr.ts lines 66-83): stream the file's
lines, push each record's embedding unchanged and its chunk through the image
resolution step, reject on an open or parse error with no partial result. -/
def loadEmbeddings (tfs : TextFs) (fsys : ImageFs) (p : Str) :
    Except LoadError (List (List ℝ) × List Str) :=
  match tfs p with
  | none => .error .fileAccessFailure
  | some lines =>
      match collectLines lines with
      | none => .error .parseFailure
      | some records =>
          .ok (records.map (fun r => r.embedding),
               records.map (fun r => processChunk fsys (dirnameL p) r.chunk))

/-- The failure cases of `readUrl` surfaced before the network call
(the spec's `InvalidInput`), plus the post-network kinds for completeness. -/
inductive ReaderFailure
  | invalidInput (msg : Str)
  | invalidResponse
  | transportFailure

/-- The outbound request `readUrl` would send: endpoint, JSON body and
headers. -/
structure RequestSpec where
  endpoint : Str
  bodyUrl : Str
  headers : List (Str × Str)

/-- The pre-network phase of `readUrl` (src/utils/reader.ts lines 5-27):
validate the URL, then assemble the POST request.  An `.error` result means
the function throws before any request is constructed or sent; an `.ok`
result carries the request that would be sent. -/
def readUrlRequest (apiKey : Str) (url : Str) (withAllLinks : Bool) :
    Except ReaderFailure RequestSpec :=
  if trimL url = [] then
    .error (.invalidInput "URL cannot be empty".toList)
  else if !strStarts "http://".toList url && !strStarts "https://".toList url then
    .error (.invalidInput "Invalid URL, only http and https URLs are supported".toList)
  else
    .ok { endpoint := "https://r.jina.ai/".toList
          bodyUrl := url
          headers :=
            [("Accept".toList, "application/json".toList),
             ("Authorization".toList, "Bearer ".toList ++ apiKey),
             ("Content-Type".toList, "application/json".toList),
             ("X-Retain-Images".toList, "none".toList),
             ("X-Md-Link-Style".toList, "discarded".toList)] ++
            (if withAllLinks then [("X-With-Links-Summary".toList, "all".toList)] else []) }

/-! Helper lemmas. -/

theorem jadd_none_right (x : JsNum) : jadd x none = none := by
  cases x <;> rfl

theorem jmul_none_right (x : JsNum) : jmul x none = none := by
  cases x <;> rfl

theorem jdiv_none_left (x : JsNum) : jdiv none x = none := by
  cases x <;> rfl

theorem nthD_map_lt {α β : Type _} (f : α → β) :
    ∀ (l : List α) (i : ℕ) (d : β) (d' : α), i < l.length →
      nthD (l.map f) i d = f (nthD l i d')
  | [], _, _, _, h => absurd h (by simp)
  | _ :: _, 0, _, _, _ => rfl
  | _ :: xs, i + 1, d, d', h => nthD_map_lt f xs i d d' (by simpa using h)

theorem nthD_mem {α : Type _} : ∀ (l : List α) (i : ℕ) (d : α),
    i < l.length → nthD l i d ∈ l
  | x :: xs, 0, _, _ => List.mem_cons_self x xs
  | x :: xs, i + 1, d, h => List.mem_cons_of_mem x (nthD_mem xs i d (by simpa using h))

theorem strStarts_append : ∀ (p t : Str), strStarts p (p ++ t) = true
  | [], _ => rfl
  | c :: ps, t => by simp [strStarts, strStarts_append ps t]

theorem strStarts_of_eq_append (p r q t : Str) (h : q = p ++ r) :
    strStarts p (q ++ t) = true := by
  subst h
  rw [List.append_assoc]
  exact strStarts_append p (r ++ t)

theorem jsGet_append : ∀ (u : List ℝ) (x : ℝ) (t : List ℝ),
    jsGet (u ++ x :: t) u.length = some x
  | [], _, _ => rfl
  | _ :: u, x, t => jsGet_append u x t

theorem jsGet_oob : ∀ (b : List ℝ) (i : ℕ), b.length ≤ i → jsGet b i = none
  | [], _, _ => rfl
  | _ :: xs, i + 1, h => jsGet_oob xs i (by simpa using h)
  | _ :: _, 0, h => absurd h (by simp)

theorem dotProductAux_none_acc (b : List ℝ) : ∀ (rest : List ℝ) (i : ℕ),
    dotProductAux b i none rest = none
  | [], _ => rfl
  | v :: rest, i => by
      simp only [dotProductAux]
      have h1 : jadd none (jmul (some v) (jsGet b i)) = none := rfl
      rw [h1]
      exact dotProductAux_none_acc b rest (i + 1)

theorem dotProductAux_append :
    ∀ (rest u w : List ℝ) (acc : ℝ), rest.length ≤ w.length →
      dotProductAux (u ++ w) u.length (some acc) rest = some (acc + dotR rest w)
  | [], u, w, acc, _ => by simp [dotProductAux, dotR]
  | _ :: _, _, [], _, h => absurd h (by simp)
  | v :: rest, u, x :: t, acc, h => by
      simp only [dotProductAux]
      rw [jsGet_append u x t]
      show dotProductAux (u ++ x :: t) (u.length + 1) (some (acc + v * x)) rest =
        some (acc + dotR (v :: rest) (x :: t))
      have h2 : rest.length ≤ t.length := by simpa using h
      have ih := dotProductAux_append rest (u ++ [x]) t (acc + v * x) h2
      rw [List.append_assoc, List.singleton_append] at ih
      simp only [List.length_append, List.length_singleton] at ih
      rw [ih]
      simp only [dotR]
      ring_nf

theorem dotProductJs_eq_some (a b : List ℝ) (h : a.length ≤ b.length) :
    dotProductJs a b = some (dotR a b) := by
  have h0 := dotProductAux_append a [] b 0 h
  simpa [dotProductJs] using h0

theorem dotProductAux_long :
    ∀ (rest b : List ℝ) (i : ℕ) (acc : JsNum),
      b.length < i + rest.length → rest ≠ [] → dotProductAux b i acc rest = none
  | [], _, _, _, _, hne => absurd rfl hne
  | v :: rest, b, i, acc, h, _ => by
      simp only [dotProductAux]
      by_cases hi : i < b.length
      · have hlen : b.length < i + (rest.length + 1) := by simpa using h
        have hne2 : rest ≠ [] := by
          intro he
          subst he
          simp at hlen
          omega
        exact dotProductAux_long rest b (i + 1) _ (by omega) hne2
      · rw [jsGet_oob b i (le_of_not_lt hi), jmul_none_right, jadd_none_right]
        exact dotProductAux_none_acc b rest (i + 1)

theorem dotProductJs_none (a b : List ℝ) (h : b.length < a.length) :
    dotProductJs a b = none := by
  have hne : a ≠ [] := by
    intro he
    subst he
    simp at h
  exact dotProductAux_long a b 0 (some 0) (by simpa using h) hne

theorem dotR_comm : ∀ (a b : List ℝ), dotR a b = dotR b a
  | [], [] => rfl
  | [], _ :: _ => rfl
  | _ :: _, [] => rfl
  | x :: xs, y :: ys => by
      simp only [dotR, dotR_comm xs ys]
      ring

theorem dotR_self_nonneg : ∀ (a : List ℝ), 0 ≤ dotR a a
  | [] => le_refl 0
  | x :: xs => by
      simp only [dotR]
      exact add_nonneg (mul_self_nonneg x) (dotR_self_nonneg xs)

theorem sumSquares_foldl : ∀ (a : List ℝ) (acc : ℝ),
    List.foldl (fun s v => s + v * v) acc a = acc + dotR a a
  | [], acc => by simp [dotR]
  | x :: xs, acc => by
      simp only [List.foldl, dotR]
      rw [sumSquares_foldl xs (acc + x * x)]
      ring

theorem sumSquares_eq_dotR (a : List ℝ) : sumSquares a = dotR a a := by
  simpa [sumSquares] using sumSquares_foldl a 0

theorem sumSquares_nonneg (a : List ℝ) : 0 ≤ sumSquares a := by
  rw [sumSquares_eq_dotR]
  exact dotR_self_nonneg a

theorem jsqrt_sumSquares (a : List ℝ) :
    jsqrt (some (sumSquares a)) = some (Real.sqrt (sumSquares a)) := by
  simp [jsqrt, not_lt.mpr (sumSquares_nonneg a)]

theorem cosineSimilarity_eq_of_le (a b : List ℝ) (h : a.length ≤ b.length) :
    cosineSimilarity a b =
      jdiv (some (dotR a b))
        (some (Real.sqrt (sumSquares a) * Real.sqrt (sumSquares b))) := by
  rw [cosineSimilarity, dotProductJs_eq_some a b h, jsqrt_sumSquares, jsqrt_sumSquares]
  rfl

theorem cosineSimilarity_of_longer (a b : List ℝ) (h : b.length < a.length) :
    cosineSimilarity a b = none := by
  rw [cosineSimilarity, dotProductJs_none a b h]
  exact jdiv_none_left _

theorem cosineSimilarity_self_eq_one (a : List ℝ) (h : sumSquares a ≠ 0) :
    cosineSimilarity a a = some 1 := by
  rw [cosineSimilarity_eq_of_le a a (le_refl _), ← sumSquares_eq_dotR,
    Real.mul_self_sqrt (sumSquares_nonneg a)]
  simp [jdiv, h, div_self h]

theorem cosineSimilarity_comm_of_eq (a b : List ℝ) (h : a.length = b.length) :
    cosineSimilarity a b = cosineSimilarity b a := by
  rw [cosineSimilarity_eq_of_le a b h.le, cosineSimilarity_eq_of_le b a h.ge,
    dotR_comm, mul_comm]

theorem collectLines_map_some : ∀ (l : List EmbeddingOutput),
    collectLines (l.map some) = some l
  | [] => rfl
  | r :: rest => by simp [collectLines, collectLines_map_some rest]

theorem collectLines_eq_none_iff : ∀ (l : List (Option EmbeddingOutput)),
    collectLines l = none ↔ none ∈ l
  | [] => by simp [collectLines]
  | none :: rest => by simp [collectLines]
  | some r :: rest => by
      simp [collectLines, collectLines_eq_none_iff rest]

theorem resolveImagePath_of_pre (fsys : ImageFs) (baseDir s : Str)
    (h : (strStarts "data:image/".toList s ||
          strStarts "http://".toList s ||
          strStarts "https://".toList s) = true) :
    resolveImagePath fsys baseDir s = s := by
  rw [resolveImagePath.eq_def]
  exact if_pos h

theorem strStarts_data_png (t : Str) :
    strStarts "data:image/".toList ("data:".toList ++ ("image/png".toList ++ t)) = true := by
  rw [← List.append_assoc]
  exact strStarts_of_eq_append _ "png".toList _ t (by decide)

theorem strStarts_data_jpeg (t : Str) :
    strStarts "data:image/".toList ("data:".toList ++ ("image/jpeg".toList ++ t)) = true := by
  rw [← List.append_assoc]
  exact strStarts_of_eq_append _ "jpeg".toList _ t (by decide)

theorem resolveImagePath_cases (fsys : ImageFs) (baseDir s : Str) :
    strStarts "data:image/".toList (resolveImagePath fsys baseDir s) = true ∨
    resolveImagePath fsys baseDir s = s := by
  rcases hc : (strStarts "data:image/".toList s ||
      strStarts "http://".toList s ||
      strStarts "https://".toList s) with _ | _
  · rcases hfs : fsys (pathResolve baseDir s) with _ | bytes
    · right
      simp [resolveImagePath, hc, hfs]
    · left
      rw [resolveImagePath.eq_def]
      rw [hc]
      simp only [Bool.false_eq_true, if_false, hfs]
      by_cases he : (extnameL (pathResolve baseDir s)).map Char.toLower = ".png".toList
      · rw [if_pos he]
        exact strStarts_data_png _
      · rw [if_neg he]
        exact strStarts_data_jpeg _
  · right
    exact resolveImagePath_of_pre fsys baseDir s hc

theorem matrix_row_length (V1 V2 : List (List ℝ)) (i : ℕ) (hi : i < V1.length) :
    (nthD (computeCorrelationMatrix V1 V2) i []).length = V2.length := by
  rw [computeCorrelationMatrix, nthD_map_lt _ V1 i [] [] hi]
  simp

theorem matrix_cell (V1 V2 : List (List ℝ)) (i j : ℕ)
    (hi : i < V1.length) (hj : j < V2.length) :
    nthD (nthD (computeCorrelationMatrix V1 V2) i []) j none =
      cosineSimilarity (nthD V1 i []) (nthD V2 j []) := by
  rw [computeCorrelationMatrix, nthD_map_lt _ V1 i [] [] hi,
    nthD_map_lt _ V2 j none [] hj]

theorem cosineSimilarity_eq_some (a b : List ℝ) (hle : a.length ≤ b.length)
    (ha : sumSquares a ≠ 0) (hb : sumSquares b ≠ 0) :
    cosineSimilarity a b =
      some (dotR a b / (Real.sqrt (sumSquares a) * Real.sqrt (sumSquares b))) := by
  rw [cosineSimilarity_eq_of_le a b hle]
  have h1 : Real.sqrt (sumSquares a) ≠ 0 :=
    Real.sqrt_ne_zero'.mpr (lt_of_le_of_ne (sumSquares_nonneg a) (Ne.symm ha))
  have h2 : Real.sqrt (sumSquares b) ≠ 0 :=
    Real.sqrt_ne_zero'.mpr (lt_of_le_of_ne (sumSquares_nonneg b) (Ne.symm hb))
  simp [jdiv, mul_ne_zero h1 h2]

theorem cosineSimilaritySpec_eq_some (a b : List ℝ)
    (ha : sumSquares a ≠ 0) (hb : sumSquares b ≠ 0) :
    cosineSimilaritySpec a b =
      some (dotR a b / (Real.sqrt (sumSquares a) * Real.sqrt (sumSquares b))) := by
  rw [cosineSimilaritySpec, jsqrt_sumSquares, jsqrt_sumSquares]
  have h1 : Real.sqrt (sumSquares a) ≠ 0 :=
    Real.sqrt_ne_zero'.mpr (lt_of_le_of_ne (sumSquares_nonneg a) (Ne.symm ha))
  have h2 : Real.sqrt (sumSquares b) ≠ 0 :=
    Real.sqrt_ne_zero'.mpr (lt_of_le_of_ne (sumSquares_nonneg b) (Ne.symm hb))
  simp [jdiv, jmul, mul_ne_zero h1 h2]

/-! The claims. -/

/-- Claim C1: for every pair of vector lists `V1` and `V2`,
`computeCorrelationMatrix V1 V2` is a dense matrix with exactly `V1.length`
rows, each row of length `V2.length`, and cell `[i][j]` equal to
`cosineSimilarity V1[i] V2[j]` for all in-range `i`, `j` — with no condition
on the vectors' contents (empty lists included). -/
theorem c1_matrix_shape_and_cells (V1 V2 : List (List ℝ)) :
    (computeCorrelationMatrix V1 V2).length = V1.length ∧
    (∀ i, i < V1.length →
      (nthD (computeCorrelationMatrix V1 V2) i []).length = V2.length) ∧
    (∀ i j, i < V1.length → j < V2.length →
      nthD (nthD (computeCorrelationMatrix V1 V2) i []) j none =
        cosineSimilarity (nthD V1 i []) (nthD V2 j [])) := by
  refine ⟨by simp [computeCorrelationMatrix], ?_, ?_⟩
  · intro i hi
    exact matrix_row_length V1 V2 i hi
  · intro i j hi hj
    exact matrix_cell V1 V2 i j hi hj

/-- Claim C1 witness: the shape and cell property evaluated at a concrete
1×2 instance. -/
theorem c1_matrix_shape_and_cells_witness :
    (computeCorrelationMatrix [[(1 : ℝ)]] [[2], [3]]).length = 1 ∧
    (nthD (computeCorrelationMatrix [[(1 : ℝ)]] [[2], [3]]) 0 []).length = 2 ∧
    nthD (nthD (computeCorrelationMatrix [[(1 : ℝ)]] [[2], [3]]) 0 []) 1 none =
      cosineSimilarity [1] [3] := by
  refine ⟨(c1_matrix_shape_and_cells [[(1 : ℝ)]] [[2], [3]]).1, ?_, ?_⟩
  · exact (c1_matrix_shape_and_cells [[(1 : ℝ)]] [[2], [3]]).2.1 0 (by decide)
  · exact (c1_matrix_shape_and_cells [[(1 : ℝ)]] [[2], [3]]).2.2 0 1 (by decide) (by decide)

/-- Claim C2 counterexample: at `a = [1, 1]`, `b = [1]` (first vector longer)
the code's reduce reads `b[1]`, which is `undefined`, so the result is NaN —
not the value obtained from the shorter vector's indices, which is finite.
So `cosineSimilarity` does not "use the shorter vector's indices". -/
theorem c2_counterexample :
    cosineSimilarity [(1 : ℝ), 1] [1] ≠ cosineSimilaritySpec [(1 : ℝ), 1] [1] := by
  rw [cosineSimilarity_of_longer [(1 : ℝ), 1] [1] (by decide),
    cosineSimilaritySpec_eq_some [(1 : ℝ), 1] [1]
      (by norm_num [sumSquares, List.foldl]) (by norm_num [sumSquares, List.foldl])]
  intro h
  exact Option.noConfusion h

/-- Claim C2 (amended): `cosineSimilarity` performs no dimension check and
always returns a value, but its dot product iterates the FIRST vector's
indices: when the first vector is the shorter one the sum indeed uses the
shorter vector's indices (under-counting the longer's terms, as the spec
says); when the first vector is the longer one the out-of-range reads of the
second make the result NaN rather than a truncated sum. -/
theorem c2_mismatched_lengths (a b : List ℝ) (h : a.length ≠ b.length) :
    (a.length < b.length → cosineSimilarity a b = cosineSimilaritySpec a b) ∧
    (b.length < a.length → cosineSimilarity a b = none) := by
  constructor
  · intro hab
    rw [cosineSimilarity_eq_of_le a b hab.le, cosineSimilaritySpec,
      jsqrt_sumSquares, jsqrt_sumSquares]
    rfl
  · intro hba
    exact cosineSimilarity_of_longer a b hba

/-- Claim C2 witness: the amended behaviour evaluated with a shorter first
vector (`[1]` against `[1, 2]`) and a longer first vector (`[1, 2]` against
`[1]`). -/
theorem c2_mismatched_lengths_witness :
    cosineSimilarity [(1 : ℝ)] [1, 2] = cosineSimilaritySpec [(1 : ℝ)] [1, 2] ∧
    cosineSimilarity [(1 : ℝ), 2] [1] = none :=
  ⟨(c2_mismatched_lengths [(1 : ℝ)] [1, 2] (by decide)).1 (by decide),
   (c2_mismatched_lengths [(1 : ℝ), 2] [1] (by decide)).2 (by decide)⟩

/-- Claim C4 counterexample: with the ragged vector list `V = [[1, 1], [1]]`
the matrix `computeCorrelationMatrix V V` is NOT symmetric: cell `[0][1]`
is NaN (the longer row against the shorter contaminates the dot product)
while cell `[1][0]` is a finite value. -/
theorem c4_counterexample :
    nthD (nthD (computeCorrelationMatrix [[(1 : ℝ), 1], [1]] [[(1 : ℝ), 1], [1]]) 0 []) 1 none ≠
      nthD (nthD (computeCorrelationMatrix [[(1 : ℝ), 1], [1]] [[(1 : ℝ), 1], [1]]) 1 []) 0 none := by
  rw [matrix_cell _ _ 0 1 (by decide) (by decide), matrix_cell _ _ 1 0 (by decide) (by decide)]
  show cosineSimilarity [(1 : ℝ), 1] [1] ≠ cosineSimilarity [(1 : ℝ)] [(1 : ℝ), 1]
  rw [cosineSimilarity_of_longer [(1 : ℝ), 1] [1] (by decide),
    cosineSimilarity_eq_some [(1 : ℝ)] [(1 : ℝ), 1] (by decide)
      (by norm_num [sumSquares, List.foldl]) (by norm_num [sumSquares, List.foldl])]
  intro h
  exact Option.noConfusion h

/-- Claim C4 (amended): `cosineSimilarity` is symmetric for equal-length
vectors, and `computeCorrelationMatrix V V` is symmetric whenever the vectors
of `V` all have the same length (the spec's own data-model invariant); for
ragged `V` symmetry can fail. -/
theorem c4_symmetry :
    (∀ a b : List ℝ, a.length = b.length →
      cosineSimilarity a b = cosineSimilarity b a) ∧
    (∀ V : List (List ℝ), (∀ u ∈ V, ∀ w ∈ V, u.length = w.length) →
      ∀ i j, i < V.length → j < V.length →
        nthD (nthD (computeCorrelationMatrix V V) i []) j none =
          nthD (nthD (computeCorrelationMatrix V V) j []) i none) := by
  refine ⟨cosineSimilarity_comm_of_eq, ?_⟩
  intro V hV i j hi hj
  rw [matrix_cell V V i j hi hj, matrix_cell V V j i hj hi]
  exact cosineSimilarity_comm_of_eq _ _
    (hV _ (nthD_mem V i [] hi) _ (nthD_mem V j [] hj))

/-- Claim C4 witness: symmetry evaluated at equal-length vectors and at an
equal-dimension 2×2 matrix. -/
theorem c4_symmetry_witness :
    cosineSimilarity [(1 : ℝ), 2] [3, 4] = cosineSimilarity [(3 : ℝ), 4] [1, 2] ∧
    nthD (nthD (computeCorrelationMatrix [[(1 : ℝ)], [2]] [[(1 : ℝ)], [2]]) 0 []) 1 none =
      nthD (nthD (computeCorrelationMatrix [[(1 : ℝ)], [2]] [[(1 : ℝ)], [2]]) 1 []) 0 none :=
  ⟨c4_symmetry.1 [(1 : ℝ), 2] [3, 4] (by decide),
   c4_symmetry.2 [[(1 : ℝ)], [2]] (by decide) 0 1 (by decide) (by decide)⟩

/-- Claim C5 counterexample: the all-zero vector `[0]` is non-empty, yet
`cosineSimilarity [0] [0]` is NaN (`0/0`), not approximately 1. -/
theorem c5_counterexample :
    [(0 : ℝ)] ≠ ([] : List ℝ) ∧ cosineSimilarity [(0 : ℝ)] [(0 : ℝ)] = none := by
  refine ⟨by simp, ?_⟩
  rw [cosineSimilarity_eq_of_le _ _ (le_refl _)]
  have h : sumSquares [(0 : ℝ)] = 0 := by norm_num [sumSquares, List.foldl]
  rw [h]
  simp [jdiv]

/-- Claim C5 (amended): for every vector with a non-zero entry (sum of
squares non-zero) `cosineSimilarity a a` is exactly `1` in the idealised real
model, and every diagonal cell of `computeCorrelationMatrix V V` whose row
vector is non-zero equals `1`; all-zero vectors instead give NaN. -/
theorem c5_diagonal_ones :
    (∀ a : List ℝ, sumSquares a ≠ 0 → cosineSimilarity a a = some 1) ∧
    (∀ V : List (List ℝ), ∀ i, i < V.length → sumSquares (nthD V i []) ≠ 0 →
      nthD (nthD (computeCorrelationMatrix V V) i []) i none = some 1) := by
  refine ⟨cosineSimilarity_self_eq_one, ?_⟩
  intro V i hi h
  rw [matrix_cell V V i i hi hi]
  exact cosineSimilarity_self_eq_one _ h

/-- Claim C5 witness: the diagonal property evaluated at `[2]` and at the
first diagonal cell of a concrete matrix. -/
theorem c5_diagonal_ones_witness :
    sumSquares [(2 : ℝ)] ≠ 0 ∧
    cosineSimilarity [(2 : ℝ)] [(2 : ℝ)] = some 1 ∧
    nthD (nthD (computeCorrelationMatrix [[(3 : ℝ)]] [[(3 : ℝ)]]) 0 []) 0 none = some 1 := by
  have h2 : sumSquares [(2 : ℝ)] ≠ 0 := by norm_num [sumSquares, List.foldl]
  have h3 : sumSquares (nthD [[(3 : ℝ)]] 0 []) ≠ 0 := by
    norm_num [sumSquares, List.foldl, nthD]
  exact ⟨h2, c5_diagonal_ones.1 [(2 : ℝ)] h2,
    c5_diagonal_ones.2 [[(3 : ℝ)]] 0 (by decide) h3⟩

/-- Claim C10: `resolveImagePath` is idempotent with respect to a fixed file
system: its output is either the input unchanged or a string beginning
`data:image/`, which the function always passes through unchanged. -/
theorem c10_resolveImagePath_idempotent (fsys : ImageFs) (baseDir s : Str) :
    resolveImagePath fsys baseDir (resolveImagePath fsys baseDir s) =
      resolveImagePath fsys baseDir s := by
  rcases resolveImagePath_cases fsys baseDir s with h | h
  · exact resolveImagePath_of_pre fsys baseDir _ (by rw [h]; simp)
  · rw [h]
    exact h

theorem resolveImagePath_of_found (fsys : ImageFs) (baseDir c : Str) (bytes : List ℕ)
    (h1 : strStarts "data:image/".toList c = false)
    (h2 : strStarts "http://".toList c = false)
    (h3 : strStarts "https://".toList c = false)
    (hfs : fsys (pathResolve baseDir c) = some bytes) :
    resolveImagePath fsys baseDir c =
      "data:".toList ++
        (if (extnameL (pathResolve baseDir c)).map Char.toLower = ".png".toList
         then "image/png".toList else "image/jpeg".toList) ++
        ";base64,".toList ++ base64Encode bytes := by
  rw [resolveImagePath.eq_def, h1, h2, h3, hfs]
  simp

theorem resolveImagePath_of_missing (fsys : ImageFs) (baseDir c : Str)
    (hpre : (strStarts "data:image/".toList c || strStarts "http://".toList c ||
      strStarts "https://".toList c) = false)
    (hfs : fsys (pathResolve baseDir c) = none) :
    resolveImagePath fsys baseDir c = c := by
  rw [resolveImagePath.eq_def, hpre, hfs]
  simp

/-- Claim C3: for an input file of `N` lines, each a valid record,
`loadEmbeddings` succeeds with an embeddings sequence and a chunks sequence
of length `N` each, in input line order, every embedding vector appended
unchanged; the two sequences have equal length. -/
theorem c3_load_success (tfs : TextFs) (fsys : ImageFs) (p : Str)
    (records : List EmbeddingOutput) (h : tfs p = some (records.map some)) :
    loadEmbeddings tfs fsys p =
      .ok (records.map (fun r => r.embedding),
           records.map (fun r => processChunk fsys (dirnameL p) r.chunk)) ∧
    (records.map (fun r => r.embedding)).length = records.length ∧
    (records.map (fun r => processChunk fsys (dirnameL p) r.chunk)).length = records.length ∧
    ∀ i, i < records.length →
      nthD (records.map (fun r => r.embedding)) i [] =
        (nthD records i ⟨[], []⟩).embedding := by
  refine ⟨?_, by simp, by simp, ?_⟩
  · simp only [loadEmbeddings.eq_def, h, collectLines_map_some]
  · intro i hi
    exact nthD_map_lt _ records i [] ⟨[], []⟩ hi

/-- Claim C3 witness: a one-line file loads to singleton sequences with the
embedding unchanged. -/
theorem c3_load_success_witness :
    loadEmbeddings (fun _ => some [some ⟨[(2 : ℝ)], "t".toList⟩]) (fun _ => none)
      "f".toList = .ok ([[(2 : ℝ)]], ["t".toList]) ∧
    nthD [[(2 : ℝ)]] 0 [] = [(2 : ℝ)] := by
  have h := c3_load_success (fun _ => some [some ⟨[(2 : ℝ)], "t".toList⟩]) (fun _ => none)
    "f".toList [⟨[(2 : ℝ)], "t".toList⟩] rfl
  exact ⟨h.1, h.2.2.2 0 (by decide)⟩

/-- Claim C6 counterexample: a record whose chunk is an image reference to a
missing local asset does NOT make `loadEmbeddings` fail: the load succeeds
and the chunk is passed through unchanged. -/
theorem c6_counterexample :
    isImagePath "img.png".toList = true ∧
    loadEmbeddings (fun _ => some [some ⟨[(1 : ℝ)], "img.png".toList⟩]) (fun _ => none)
      "d/f.jsonl".toList = .ok ([[(1 : ℝ)]], ["img.png".toList]) := by
  exact ⟨by decide, rfl⟩

/-- Claim C6 (amended): `loadEmbeddings` fails with a `FileAccessFailure`
exactly when the input file cannot be opened and with a `ParseFailure` when a
line fails to parse as JSON, with no partial results; a missing local image
asset does not cause a failure (the chunk is passed through unchanged), for
any state of the image file system. -/
theorem c6_failure_conditions (tfs : TextFs) (fsys : ImageFs) (p : Str) :
    (tfs p = none → loadEmbeddings tfs fsys p = .error .fileAccessFailure) ∧
    (∀ lines, tfs p = some lines → none ∈ lines →
      loadEmbeddings tfs fsys p = .error .parseFailure) ∧
    (∀ lines, tfs p = some lines → none ∉ lines →
      ∃ result, loadEmbeddings tfs fsys p = .ok result) := by
  refine ⟨?_, ?_, ?_⟩
  · intro h
    rw [loadEmbeddings.eq_def, h]
  · intro lines h hmem
    simp only [loadEmbeddings.eq_def, h, (collectLines_eq_none_iff lines).mpr hmem]
  · intro lines h hmem
    rcases hr : collectLines lines with _ | records
    · exact absurd ((collectLines_eq_none_iff lines).mp hr) hmem
    · exact ⟨(records.map (fun r => r.embedding),
          records.map (fun r => processChunk fsys (dirnameL p) r.chunk)),
        by simp only [loadEmbeddings.eq_def, h, hr]⟩

/-- Claim C6 witness: the two real failure modes evaluated concretely — an
unopenable file and an unparseable line. -/
theorem c6_failure_conditions_witness :
    loadEmbeddings (fun _ => none) (fun _ => none) "f".toList =
      .error .fileAccessFailure ∧
    loadEmbeddings (fun _ => some [none]) (fun _ => none) "f".toList =
      .error .parseFailure :=
  ⟨(c6_failure_conditions (fun _ => none) (fun _ => none) "f".toList).1 rfl,
   (c6_failure_conditions (fun _ => some [none]) (fun _ => none) "f".toList).2.1
     [none] rfl (List.mem_singleton.mpr rfl)⟩

/-- Claim C7: for every url that trims to the empty string or does not start
with `http://` or `https://`, `readUrlRequest` fails with an `InvalidInput`
error; no request value is produced, so nothing is sent. -/
theorem c7_invalid_input (apiKey url : Str) (withAllLinks : Bool)
    (h : trimL url = [] ∨
      (strStarts "http://".toList url = false ∧ strStarts "https://".toList url = false)) :
    ∃ msg, readUrlRequest apiKey url withAllLinks = .error (.invalidInput msg) := by
  rcases h with h | ⟨h1, h2⟩
  · refine ⟨"URL cannot be empty".toList, ?_⟩
    rw [readUrlRequest.eq_def, if_pos h]
  · by_cases ht : trimL url = []
    · refine ⟨"URL cannot be empty".toList, ?_⟩
      rw [readUrlRequest.eq_def, if_pos ht]
    · refine ⟨"Invalid URL, only http and https URLs are supported".toList, ?_⟩
      rw [readUrlRequest.eq_def, if_neg ht, h1, h2]
      simp

/-- Claim C7 witness: `readUrl("ftp://x")` fails with `InvalidInput` before
any request is built. -/
theorem c7_invalid_input_witness :
    ∃ msg, readUrlRequest [] "ftp://x".toList false = .error (.invalidInput msg) :=
  c7_invalid_input [] "ftp://x".toList false (Or.inr ⟨by decide, by decide⟩)

/-- Claim C8: `truncateLabel` defaults `maxLen` to 32, returns the fixed
placeholder glyph on an image reference (the `isImagePath` classification),
returns short text unmodified, and cuts long text to its first `maxLen`
characters plus the truncation marker. -/
theorem c8_truncateLabel (text : Str) (maxLen : ℕ) :
    truncateLabel text = truncateLabel text 32 ∧
    (isImagePath text = true → truncateLabel text maxLen = "🖼️".toList) ∧
    (isImagePath text = false → text.length ≤ maxLen → truncateLabel text maxLen = text) ∧
    (isImagePath text = false → maxLen < text.length →
      truncateLabel text maxLen = text.take maxLen ++ "…".toList) := by
  refine ⟨rfl, ?_, ?_, ?_⟩
  · intro h
    simp [truncateLabel, h]
  · intro h hle
    simp [truncateLabel, h, not_lt.mpr hle]
  · intro h hlt
    simp [truncateLabel, h, hlt]

/-- Claim C8 witness: the spec's three examples — an image URL renders as the
glyph, 40 characters truncate to 32 plus the marker, 10 characters pass
through unmodified. -/
theorem c8_truncateLabel_witness :
    isImagePath "https://example.com/x.png".toList = true ∧
    truncateLabel "https://example.com/x.png".toList 32 = "🖼️".toList ∧
    truncateLabel (List.replicate 40 'a') 32 = List.replicate 32 'a' ++ "…".toList ∧
    truncateLabel (List.replicate 10 'a') 32 = List.replicate 10 'a' := by
  refine ⟨by decide, ?_, ?_, ?_⟩
  · exact (c8_truncateLabel "https://example.com/x.png".toList 32).2.1 (by decide)
  · have h := (c8_truncateLabel (List.replicate 40 'a') 32).2.2.2 (by decide) (by decide)
    exact h.trans (by decide)
  · exact (c8_truncateLabel (List.replicate 10 'a') 32).2.2.1 (by decide) (by decide)

/-- Claim C9 counterexample: the chunk `img.png` is classified as an image
reference and is a local relative path, but with its asset missing from the
file system it is passed through unchanged during ingestion — it is NOT
rewritten to a `data:` URI. -/
theorem c9_counterexample :
    isImagePath "img.png".toList = true ∧
    processChunk (fun _ => none) ".".toList "img.png".toList = "img.png".toList ∧
    strStarts "data:".toList "img.png".toList = false :=
  ⟨by decide, by decide, by decide⟩

/-- Claim C9 (amended): during ingestion a chunk classified as an image
reference that is a local relative path AND whose resolved file exists is
rewritten to a base64 data URI (`image/png` when the lower-cased extension of
the resolved path is `.png`, else `image/jpeg`), read relative to the input
file's directory; a chunk whose asset is missing is passed through
unchanged, as are data URIs, absolute http(s) URLs, and chunks not
classified as image references. -/
theorem c9_chunk_resolution (fsys : ImageFs) (baseDir c : Str) :
    ((strStarts "data:image/".toList c = true ∨ strStarts "http://".toList c = true ∨
        strStarts "https://".toList c = true) →
      processChunk fsys baseDir c = c) ∧
    (isImagePath c = false → processChunk fsys baseDir c = c) ∧
    (∀ bytes, isImagePath c = true →
      strStarts "data:image/".toList c = false →
      strStarts "http://".toList c = false →
      strStarts "https://".toList c = false →
      fsys (pathResolve baseDir c) = some bytes →
      processChunk fsys baseDir c =
        "data:".toList ++
          (if (extnameL (pathResolve baseDir c)).map Char.toLower = ".png".toList
           then "image/png".toList else "image/jpeg".toList) ++
          ";base64,".toList ++ base64Encode bytes) ∧
    (isImagePath c = true → fsys (pathResolve baseDir c) = none →
      processChunk fsys baseDir c = c) := by
  refine ⟨?_, ?_, ?_, ?_⟩
  · intro h
    have himg : isImagePath c = true := by
      rw [isImagePath.eq_def]
      rcases h with h | h | h <;> rw [h] <;> simp
    have hpre : (strStarts "data:image/".toList c || strStarts "http://".toList c ||
        strStarts "https://".toList c) = true := by
      rcases h with h | h | h <;> rw [h] <;> simp
    rw [processChunk, if_pos himg]
    exact resolveImagePath_of_pre fsys baseDir c hpre
  · intro h
    simp [processChunk, h]
  · intro bytes himg h1 h2 h3 hfs
    rw [processChunk, if_pos himg]
    exact resolveImagePath_of_found fsys baseDir c bytes h1 h2 h3 hfs
  · intro himg hfs
    rw [processChunk, if_pos himg]
    rcases hb : (strStarts "data:image/".toList c || strStarts "http://".toList c ||
        strStarts "https://".toList c) with _ | _
    · exact resolveImagePath_of_missing fsys baseDir c hb hfs
    · exact resolveImagePath_of_pre fsys baseDir c hb

/-- Claim C9 witness: a `.png` chunk whose asset (a single zero byte) exists
is rewritten to the expected data URI, and a plain-text chunk passes through
unchanged. -/
theorem c9_chunk_resolution_witness :
    processChunk (fun _ => some [0]) "d".toList "a.png".toList =
      "data:image/png;base64,AA==".toList ∧
    processChunk (fun _ => some [0]) "d".toList "hello".toList = "hello".toList := by
  constructor
  · have h := (c9_chunk_resolution (fun _ => some [0]) "d".toList "a.png".toList).2.2.1
      [0] (by decide) (by decide) (by decide) (by decide) rfl
    exact h.trans (by decide)
  · exact (c9_chunk_resolution (fun _ => some [0]) "d".toList "hello".toList).2.1 (by decide)

end Corr
